import Mathlib

/-!
Shallow embedding of `datacompy/core.py` (class `Compare`): dataframes, the
outer-join partitioning with duplicate ranking, per-column tolerance
comparison, and the derived predicates (`matches`, `subset`,
`count_matching_rows`, `sample_mismatch`, `column_stats`).  The module
`datacompy/utils.py` is imported by `core.py` but absent from the source
tree; its two comparison-relevant functions (`columns_equal`,
`temp_column_name`) are modelled from the spec and marked as such.
-/

attribute [local semireducible] Rat.add Rat.mul Rat.sub Rat.inv

namespace Datacompy

/-- Cell values of a dataframe: missing (`NaN`/`None`), numeric, or string. -/
inductive Value where
  | null : Value
  | num : ℚ → Value
  | str : String → Value
deriving DecidableEq, Repr

/-- One dataframe record: its index label and its cell values (one per column). -/
structure Row where
  idx : Value
  cells : List Value
deriving DecidableEq, Repr

instance : Inhabited Row := ⟨⟨Value.null, []⟩⟩

/-- A pandas dataframe: column names, their dtype strings, and the records. -/
structure DataFrame where
  cols : List String
  dtypes : List String
  rows : List Row
deriving DecidableEq, Repr

/-- Well-formedness of a dataframe: rectangular rows, one dtype per column. -/
def DataFrame.WF (df : DataFrame) : Prop :=
  df.dtypes.length = df.cols.length ∧ ∀ r ∈ df.rows, r.cells.length = df.cols.length

instance (df : DataFrame) : Decidable df.WF := by
  unfold DataFrame.WF; infer_instance

/-- Value of column `c` in row `r` (`row[c]`), looked up by name in `cols`. -/
def cellOf (cols : List String) (r : Row) (c : String) : Value :=
  r.cells.getD (cols.indexOf c) Value.null

/-- Dtype string of column `c` (`str(df[c].dtype)`). -/
def dtypeOf (df : DataFrame) (c : String) : String :=
  df.dtypes.getD (df.cols.indexOf c) ""

/-- Python `str.lower`, written over the character list so that it evaluates. -/
def strLower (s : String) : String := String.mk (s.data.map Char.toLower)

/-- Case normalization `dataframe.columns = [col.lower() for col in dataframe.columns]`
performed in place by `Compare._validate_dataframe` on the caller's dataframe. -/
def lowerCols (df : DataFrame) : DataFrame :=
  { df with cols := df.cols.map strLower }

/-- Modelled from the spec: `utils.temp_column_name` (module `datacompy/utils.py` is
missing from the sources) returns a column name present in neither dataframe; here a
name strictly longer than every existing column name. -/
def temp_column_name (df1 df2 : DataFrame) : String :=
  "_" ++ (df1.cols ++ df2.cols).foldr (fun a b => a ++ b) ""

theorem length_le_concat {c : String} :
    ∀ (l : List String), c ∈ l → c.length ≤ (l.foldr (fun a b => a ++ b) "").length := by
  intro l hc
  induction l with
  | nil => cases hc
  | cons a t ih =>
    rcases List.mem_cons.mp hc with h | h
    · subst h
      simp [List.foldr_cons, String.length_append]
    · have h1 := ih h
      simp only [List.foldr_cons, String.length_append]
      omega

theorem temp_column_name_fresh (df1 df2 : DataFrame) :
    temp_column_name df1 df2 ∉ df1.cols ++ df2.cols := by
  intro hmem
  have h1 := length_le_concat (df1.cols ++ df2.cols) hmem
  have h2 : ("_" : String).length = 1 := rfl
  have h3 : (temp_column_name df1 df2).length =
      ("_" : String).length + ((df1.cols ++ df2.cols).foldr (fun a b => a ++ b) "").length :=
    String.length_append _ _
  omega

/-- Pandas `df[c] = vals`: append a new column named `c` with dtype `dt`. -/
def addCol (df : DataFrame) (c dt : String) (vals : List Value) : DataFrame :=
  { cols := df.cols ++ [c], dtypes := df.dtypes ++ [dt],
    rows := (df.rows.zip vals).map (fun p => ⟨p.1.idx, p.1.cells ++ [p.2]⟩) }

/-- Pandas `df.drop(c, axis=1)`: remove the first column named `c` and its cells. -/
def dropCol (df : DataFrame) (c : String) : DataFrame :=
  { cols := df.cols.eraseIdx (df.cols.indexOf c),
    dtypes := df.dtypes.eraseIdx (df.cols.indexOf c),
    rows := df.rows.map (fun r => ⟨r.idx, r.cells.eraseIdx (df.cols.indexOf c)⟩) }

/-- Strict comparison of two cell values as `sort_values` orders them: numerics by
value, strings lexicographically, missing values last (`na_position='last'`). -/
def Value.lt : Value → Value → Bool
  | .num x, .num y => decide (x < y)
  | .num _, .str _ => true
  | .num _, .null => true
  | .str s, .str t => decide (s < t)
  | .str _, .null => true
  | _, _ => false

theorem Value.lt_irrefl (a : Value) : Value.lt a a = false := by
  cases a <;> simp [Value.lt]

theorem Value.lt_trans {a b c : Value} (hab : Value.lt a b = true)
    (hbc : Value.lt b c = true) : Value.lt a c = true := by
  cases a <;> cases b <;> cases c <;> simp_all [Value.lt]
  · exact hab.trans hbc
  · exact hab.trans hbc

theorem Value.lt_conn {a b : Value} (hab : Value.lt a b = false)
    (hba : Value.lt b a = false) : a = b := by
  cases a with
  | null =>
    cases b with
    | null => rfl
    | num y => simp [Value.lt] at hba
    | str t => simp [Value.lt] at hba
  | num x =>
    cases b with
    | null => simp [Value.lt] at hab
    | num y =>
      simp only [Value.lt, decide_eq_false_iff_not, not_lt] at hab hba
      exact congrArg Value.num (le_antisymm hba hab)
    | str t => simp [Value.lt] at hab
  | str s =>
    cases b with
    | null => simp [Value.lt] at hab
    | num y => simp [Value.lt] at hba
    | str t =>
      simp only [Value.lt, decide_eq_false_iff_not, not_lt] at hab hba
      exact congrArg Value.str (le_antisymm hba hab)

/-- Lexicographic strict order on full cell tuples (`sort_values(by=all columns)`). -/
def listLt : List Value → List Value → Bool
  | [], [] => false
  | [], _ :: _ => true
  | _ :: _, [] => false
  | a :: as, b :: bs => Value.lt a b || (decide (a = b) && listLt as bs)

theorem listLt_irrefl (l : List Value) : listLt l l = false := by
  induction l with
  | nil => rfl
  | cons a t ih => simp [listLt, Value.lt_irrefl, ih]

theorem listLt_trans :
    ∀ {l1 l2 l3 : List Value}, listLt l1 l2 = true → listLt l2 l3 = true →
      listLt l1 l3 = true := by
  intro l1
  induction l1 with
  | nil =>
    intro l2 l3 h12 h23
    cases l2 with
    | nil => simp [listLt] at h12
    | cons b bs =>
      cases l3 with
      | nil => simp [listLt] at h23
      | cons c cs => simp [listLt]
  | cons a as ih =>
    intro l2 l3 h12 h23
    cases l2 with
    | nil => simp [listLt] at h12
    | cons b bs =>
      cases l3 with
      | nil => simp [listLt] at h23
      | cons c cs =>
        simp only [listLt, Bool.or_eq_true, Bool.and_eq_true, decide_eq_true_eq] at h12 h23 ⊢
        rcases h12 with hab | ⟨hab, htail12⟩
        · rcases h23 with hbc | ⟨hbc, _⟩
          · exact Or.inl (Value.lt_trans hab hbc)
          · subst hbc; exact Or.inl hab
        · subst hab
          rcases h23 with hbc | ⟨hbc, htail23⟩
          · exact Or.inl hbc
          · subst hbc; exact Or.inr ⟨rfl, ih htail12 htail23⟩

theorem listLt_conn :
    ∀ {l1 l2 : List Value}, listLt l1 l2 = false → listLt l2 l1 = false → l1 = l2 := by
  intro l1
  induction l1 with
  | nil =>
    intro l2 h12 _
    cases l2 with
    | nil => rfl
    | cons b bs => simp [listLt] at h12
  | cons a as ih =>
    intro l2 h12 h21
    cases l2 with
    | nil => simp [listLt] at h21
    | cons b bs =>
      simp only [listLt, Bool.or_eq_false_iff, Bool.and_eq_false_iff] at h12 h21
      obtain ⟨hab, h12r⟩ := h12
      obtain ⟨hba, h21r⟩ := h21
      have hEq : a = b := Value.lt_conn hab hba
      subst hEq
      have h1 : listLt as bs = false := by
        rcases h12r with h | h
        · simp at h
        · exact h
      have h2 : listLt bs as = false := by
        rcases h21r with h | h
        · simp at h
        · exact h
      rw [ih h1 h2]

/-- Does record `(i, r)` come before record `(j, s)` in the stable full-row sort
`df.sort_values(by=list(df.columns))` (ties broken by original position)? -/
def sortedBefore (p q : Nat × Row) : Bool :=
  listLt p.2.cells q.2.cells || (decide (p.2.cells = q.2.cells) && decide (p.1 < q.1))

theorem sortedBefore_irrefl (p : Nat × Row) : sortedBefore p p = false := by
  simp [sortedBefore, listLt_irrefl]

theorem sortedBefore_trans {p q r : Nat × Row} (hpq : sortedBefore p q = true)
    (hqr : sortedBefore q r = true) : sortedBefore p r = true := by
  simp only [sortedBefore, Bool.or_eq_true, Bool.and_eq_true, decide_eq_true_eq] at hpq hqr ⊢
  rcases hpq with h1 | ⟨he1, hi1⟩
  · rcases hqr with h2 | ⟨he2, hi2⟩
    · exact Or.inl (listLt_trans h1 h2)
    · rw [he2] at h1
      exact Or.inl h1
  · rcases hqr with h2 | ⟨he2, hi2⟩
    · rw [he1]
      exact Or.inl h2
    · exact Or.inr ⟨he1.trans he2, Nat.lt_trans hi1 hi2⟩

theorem sortedBefore_total {p q : Nat × Row} (hne : p.1 ≠ q.1) :
    sortedBefore p q = true ∨ sortedBefore q p = true := by
  cases h1 : listLt p.2.cells q.2.cells with
  | true =>
    left
    simp [sortedBefore, h1]
  | false =>
    cases h2 : listLt q.2.cells p.2.cells with
    | true =>
      right
      simp [sortedBefore, h2]
    | false =>
      have he : p.2.cells = q.2.cells := listLt_conn h1 h2
      rcases Nat.lt_or_ge p.1 q.1 with hlt | hge
      · left
        simp [sortedBefore, he, hlt]
      · right
        have hlt2 : q.1 < p.1 := lt_of_le_of_ne hge (Ne.symm hne)
        simp [sortedBefore, he, hlt2]

/-- Join-key tuple of a record: the index label when joining `on_index`, otherwise
the values of the `join_columns`. -/
def rowKey (onIdx : Bool) (cols joinCols : List String) (r : Row) : List Value :=
  if onIdx then [r.idx] else joinCols.map (cellOf cols r)

/-- Duplicate-key detection of `_validate_dataframe`:
`len(df.drop_duplicates(subset=join_columns)) < len(df)` (resp. a duplicated index
label when joining on index) holds exactly when the list of keys has a repeat. -/
def hasDupKeys (key : Row → List Value) (rows : List Row) : Bool :=
  !(decide (rows.map key).Nodup)

/-- Record at position `i`. -/
def rowAt (rows : List Row) (i : Nat) : Row := rows.getD i default

/-- Rank of record `i` within its key group, as computed by
`df.sort_values(by=list(df.columns)).groupby(temp_join_columns).cumcount()`:
the number of same-key records that precede record `i` in the stable full-row sort. -/
def rankOf (key : Row → List Value) (rows : List Row) (i : Nat) : Nat :=
  (List.range rows.length).countP (fun j =>
    decide (key (rowAt rows j) = key (rowAt rows i)) &&
      sortedBefore (j, rowAt rows j) (i, rowAt rows i))

/-- All records of a dataframe paired with their duplicate rank. -/
def ranked (key : Row → List Value) (rows : List Row) : List (Row × Nat) :=
  (List.range rows.length).map (fun i => (rowAt rows i, rankOf key rows i))

/-- Rank values, as the cells of the synthesized order column. -/
def rankVals (key : Row → List Value) (rows : List Row) : List Value :=
  (ranked key rows).map (fun p => Value.num (p.2 : ℚ))

/-- Augmented join key used when duplicate keys are present: the key values plus the
value of the synthesized order column. -/
def augKey (key : Row → List Value) (p : Row × Nat) : List Value :=
  key p.1 ++ [Value.num (p.2 : ℚ)]

theorem countP_lt_of_witness {α : Type} {p q : α → Bool} {l : List α}
    (hmono : ∀ x ∈ l, p x = true → q x = true) {a : α} (ha : a ∈ l)
    (hqa : q a = true) (hpa : p a = false) : l.countP p < l.countP q := by
  induction l with
  | nil => cases ha
  | cons b t ih =>
    have hmt : ∀ x ∈ t, p x = true → q x = true := fun x hx =>
      hmono x (List.mem_cons_of_mem _ hx)
    rcases List.mem_cons.mp ha with rfl | hat
    · have h1 : t.countP p ≤ t.countP q := List.countP_mono_left hmt
      simp [List.countP_cons, hpa, hqa]
      omega
    · have h2 : t.countP p < t.countP q := ih hmt hat
      have hb := hmono b (List.mem_cons_self b t)
      cases hpb : p b with
      | true =>
        simp [List.countP_cons, hpb, hb hpb]
        omega
      | false =>
        simp [List.countP_cons, hpb]
        cases hqb : q b <;> simp [hqb] <;> omega

theorem rankOf_lt_rankOf {key : Row → List Value} {rows : List Row} {i j : Nat}
    (hi : i < rows.length) (hkey : key (rowAt rows i) = key (rowAt rows j))
    (hb : sortedBefore (i, rowAt rows i) (j, rowAt rows j) = true) :
    rankOf key rows i < rankOf key rows j := by
  apply countP_lt_of_witness (a := i)
  · intro t _ hpt
    simp only [Bool.and_eq_true, decide_eq_true_eq] at hpt ⊢
    exact ⟨hpt.1.trans hkey, sortedBefore_trans hpt.2 hb⟩
  · exact List.mem_range.mpr hi
  · simp [hkey, hb]
  · simp [sortedBefore_irrefl]

/-- The augmented keys `(key values, duplicate rank)` are pairwise distinct, for any
key function producing tuples of one fixed width. -/
theorem ranked_augKey_nodup {key : Row → List Value} {rows : List Row}
    (hlen : ∀ r s : Row, (key r).length = (key s).length) :
    ((ranked key rows).map (augKey key)).Nodup := by
  rw [ranked, List.map_map]
  apply List.Nodup.map_on ?_ (List.nodup_range _)
  intro i hi j hj hfij
  simp only [Function.comp, augKey] at hfij
  have hkl : (key (rowAt rows i)).length = (key (rowAt rows j)).length := hlen _ _
  obtain ⟨hkeq, htl⟩ := List.append_inj hfij hkl
  have hrk : rankOf key rows i = rankOf key rows j := by
    have h1 : Value.num ((rankOf key rows i : Nat) : ℚ) =
        Value.num ((rankOf key rows j : Nat) : ℚ) := by
      exact (List.cons.injEq _ _ _ _).mp htl |>.1
    have h2 : ((rankOf key rows i : Nat) : ℚ) = ((rankOf key rows j : Nat) : ℚ) :=
      Value.num.inj h1
    exact_mod_cast h2
  by_contra hne
  rcases sortedBefore_total (p := (i, rowAt rows i)) (q := (j, rowAt rows j)) hne with hb | hb
  · have := rankOf_lt_rankOf (List.mem_range.mp hi) hkeq hb
    omega
  · have := rankOf_lt_rankOf (List.mem_range.mp hj) hkeq.symm hb
    omega

/-- Matched record pairs of `df1.merge(df2, how='outer', indicator=True)`: for every
left record, every right record with an equal join key (`_merge == 'both'`). -/
def joinBoth {α β κ : Type} [DecidableEq κ] (kx : α → κ) (ky : β → κ)
    (xs : List α) (ys : List β) : List (α × β) :=
  xs.flatMap (fun x => (ys.filter (fun y => decide (ky y = kx x))).map (fun y => (x, y)))

/-- Left records with no key counterpart (`_merge == 'left_only'`). -/
def joinLeftOnly {α β κ : Type} [DecidableEq κ] (kx : α → κ) (ky : β → κ)
    (xs : List α) (ys : List β) : List α :=
  xs.filter (fun x => !(ys.any (fun y => decide (ky y = kx x))))

/-- Right records with no key counterpart (`_merge == 'right_only'`). -/
def joinRightOnly {α β κ : Type} [DecidableEq κ] (kx : α → κ) (ky : β → κ)
    (xs : List α) (ys : List β) : List β :=
  ys.filter (fun y => !(xs.any (fun x => decide (kx x = ky y))))

theorem joinBoth_cons {α β κ : Type} [DecidableEq κ] {kx : α → κ} {ky : β → κ}
    {x : α} {t : List α} {ys : List β} :
    joinBoth kx ky (x :: t) ys =
      ((ys.filter (fun y => decide (ky y = kx x))).map (fun y => (x, y))) ++
        joinBoth kx ky t ys := by
  simp [joinBoth]

theorem joinBoth_nil {α β κ : Type} [DecidableEq κ] {kx : α → κ} {ky : β → κ}
    {xs : List α} : joinBoth kx ky xs ([] : List β) = [] := by
  induction xs with
  | nil => rfl
  | cons x t ih => rw [joinBoth_cons]; simp [ih]

theorem filter_key_length_le_one {α κ : Type} [DecidableEq κ] {k : α → κ} {l : List α}
    (h : (l.map k).Nodup) (v : κ) :
    (l.filter (fun a => decide (k a = v))).length ≤ 1 := by
  induction l with
  | nil => simp
  | cons a t ih =>
    simp only [List.map_cons, List.nodup_cons] at h
    obtain ⟨hnotin, hnd⟩ := h
    by_cases ha : k a = v
    · have ht : t.filter (fun b => decide (k b = v)) = [] := by
        apply List.filter_eq_nil_iff.mpr
        intro b hbt hdec
        rw [decide_eq_true_eq] at hdec
        exact hnotin (List.mem_map.mpr ⟨b, hbt, hdec.trans ha.symm⟩)
      simp [List.filter_cons, ha, ht]
    · simp only [List.filter_cons, ha, decide_eq_true_eq, if_neg ha]
      exact ih hnd

theorem count_key_le_one {α κ : Type} [DecidableEq κ] {k : α → κ} {l : List α}
    (h : (l.map k).Nodup) (v : κ) : l.countP (fun a => decide (k a = v)) ≤ 1 := by
  rw [List.countP_eq_length_filter]
  exact filter_key_length_le_one h v

theorem filter_key_pos {α κ : Type} [DecidableEq κ] {k : α → κ} {l : List α} {v : κ}
    (h : l.any (fun a => decide (k a = v)) = true) :
    1 ≤ (l.filter (fun a => decide (k a = v))).length := by
  obtain ⟨a, hal, hdec⟩ := List.any_eq_true.mp h
  have : a ∈ l.filter (fun a => decide (k a = v)) := List.mem_filter.mpr ⟨hal, hdec⟩
  exact List.length_pos.mpr (List.ne_nil_of_mem this)

theorem filter_key_nil {α κ : Type} [DecidableEq κ] {k : α → κ} {l : List α} {v : κ}
    (h : l.any (fun a => decide (k a = v)) = false) :
    l.filter (fun a => decide (k a = v)) = [] := by
  apply List.filter_eq_nil_iff.mpr
  intro a hal hdec
  exact (List.any_eq_false.mp h a hal) hdec

/-- Partition identity seen from the left side: when the right side's keys are
unique, every left record lands in exactly one of `left_only`, `both`. -/
theorem length_joinLeftOnly_add_joinBoth {α β κ : Type} [DecidableEq κ]
    (kx : α → κ) (ky : β → κ) (xs : List α) (ys : List β) (h : (ys.map ky).Nodup) :
    xs.length = (joinLeftOnly kx ky xs ys).length + (joinBoth kx ky xs ys).length := by
  induction xs with
  | nil => simp [joinLeftOnly, joinBoth]
  | cons x t ih =>
    rw [joinBoth_cons]
    simp only [joinLeftOnly, List.filter_cons] at *
    cases hany : ys.any (fun y => decide (ky y = kx x)) with
    | true =>
      have h1 := filter_key_length_le_one h (kx x)
      have h2 := filter_key_pos hany
      simp only [hany, Bool.not_true, if_neg (by simp : ¬ (false = true))]
      simp only [List.length_cons, List.length_append, List.length_map]
      omega
    | false =>
      have h0 : ys.filter (fun y => decide (ky y = kx x)) = [] := filter_key_nil hany
      simp only [hany, Bool.not_false, if_true, h0]
      simp only [List.length_cons, List.length_append, List.length_map, List.map_nil,
        List.length_nil]
      omega

theorem length_joinBoth_cons_right {α β κ : Type} [DecidableEq κ]
    {kx : α → κ} {ky : β → κ} {xs : List α} {y : β} {u : List β} :
    (joinBoth kx ky xs (y :: u)).length =
      xs.countP (fun x => decide (ky y = kx x)) + (joinBoth kx ky xs u).length := by
  induction xs with
  | nil => simp [joinBoth]
  | cons x t ih =>
    rw [joinBoth_cons, joinBoth_cons]
    simp only [List.length_append, List.length_map, ih, List.filter_cons,
      List.countP_cons]
    cases hxy : decide (ky y = kx x) with
    | true => simp only [hxy, if_true, List.length_cons]; omega
    | false =>
      simp only [hxy, if_neg (by simp : ¬ (false = true))]
      omega

/-- Partition identity seen from the right side: when the left side's keys are
unique, every right record lands in exactly one of `right_only`, `both`. -/
theorem length_joinRightOnly_add_joinBoth {α β κ : Type} [DecidableEq κ]
    (kx : α → κ) (ky : β → κ) (xs : List α) (ys : List β) (h : (xs.map kx).Nodup) :
    ys.length = (joinRightOnly kx ky xs ys).length + (joinBoth kx ky xs ys).length := by
  induction ys with
  | nil => simp [joinRightOnly, joinBoth_nil]
  | cons y u ih =>
    rw [length_joinBoth_cons_right]
    simp only [joinRightOnly, List.filter_cons] at *
    have hflip : xs.countP (fun x => decide (ky y = kx x)) =
        xs.countP (fun x => decide (kx x = ky y)) := by
      apply List.countP_congr
      intro x _
      simp [eq_comm]
    cases hany : xs.any (fun x => decide (kx x = ky y)) with
    | true =>
      have h1 : xs.countP (fun x => decide (kx x = ky y)) ≤ 1 := count_key_le_one h _
      have h2 : 1 ≤ (xs.filter (fun x => decide (kx x = ky y))).length :=
        filter_key_pos hany
      rw [List.countP_eq_length_filter] at h1
      simp only [hany, Bool.not_true, if_neg (by simp : ¬ (false = true))]
      rw [hflip, List.countP_eq_length_filter]
      simp only [List.length_cons]
      omega
    | false =>
      have h0 : xs.countP (fun x => decide (kx x = ky y)) = 0 := by
        rw [List.countP_eq_length_filter, filter_key_nil hany]
        rfl
      simp only [hany, Bool.not_false, if_true]
      rw [hflip, h0]
      simp only [List.length_cons]
      omega

/-- Joining a uniquely-keyed record list with itself: nothing is orphaned and every
record is paired exactly with itself. -/
theorem self_join {α κ : Type} [DecidableEq κ] {k : α → κ} {xs : List α}
    (h : (xs.map k).Nodup) :
    joinLeftOnly k k xs xs = [] ∧ joinRightOnly k k xs xs = [] ∧
      (joinBoth k k xs xs).length = xs.length ∧
      ∀ p ∈ joinBoth k k xs xs, p.1 = p.2 := by
  refine ⟨?_, ?_, ?_, ?_⟩
  · apply List.filter_eq_nil_iff.mpr
    intro x hx hcond
    have : xs.any (fun y => decide (k y = k x)) = true :=
      List.any_eq_true.mpr ⟨x, hx, by simp⟩
    rw [this] at hcond
    simp at hcond
  · apply List.filter_eq_nil_iff.mpr
    intro y hy hcond
    have : xs.any (fun x => decide (k x = k y)) = true :=
      List.any_eq_true.mpr ⟨y, hy, by simp⟩
    rw [this] at hcond
    simp at hcond
  · have hid := length_joinLeftOnly_add_joinBoth k k xs xs h
    have hnil : joinLeftOnly k k xs xs = [] := by
      apply List.filter_eq_nil_iff.mpr
      intro x hx hcond
      have : xs.any (fun y => decide (k y = k x)) = true :=
        List.any_eq_true.mpr ⟨x, hx, by simp⟩
      rw [this] at hcond
      simp at hcond
    rw [hnil] at hid
    simp at hid
    omega
  · intro p hp
    obtain ⟨x, hx, hpm⟩ := List.mem_flatMap.mp hp
    obtain ⟨y, hyf, hyp⟩ := List.mem_map.mp hpm
    obtain ⟨hy, hky⟩ := List.mem_filter.mp hyf
    have hkey : k y = k x := of_decide_eq_true hky
    have : y = x := List.inj_on_of_nodup_map h hy hx hkey
    rw [← hyp, this]

/-- Modelled from the spec: `utils.columns_equal(col_1, col_2, rel_tol, abs_tol)`
(module `datacompy/utils.py` is missing from the sources).  Priority rule of the
Tolerance Comparator: both values null → equal; exactly one null → not equal; both
numeric → `abs(left - right) <= abs_tol + rel_tol * abs(right)`; otherwise exact
value equality, never raising on non-numeric or incompatible types. -/
def columns_equal (a b : Value) (rel_tol abs_tol : ℚ) : Bool :=
  match a, b with
  | .null, .null => true
  | .null, _ => false
  | _, .null => false
  | .num x, .num y => decide (|x - y| ≤ abs_tol + rel_tol * |y|)
  | .str s, .str t => decide (s = t)
  | _, _ => false

/-- Pandas `isnull` on one cell. -/
def isNull : Value → Bool
  | .null => true
  | _ => false

/-- Count of `(col_1.isnull() ^ col_2.isnull())`: matched rows where exactly one
side is missing. -/
def nullDiffOf (cols1 cols2 : List String) (inter : List (Row × Row)) (c : String) :
    Nat :=
  inter.countP (fun pr => (isNull (cellOf cols1 pr.1 c)).xor (isNull (cellOf cols2 pr.2 c)))

/-- Is a cell value one that a numeric column subtraction accepts? -/
def isNumOrNull : Value → Bool
  | .str _ => false
  | _ => true

/-- Absolute difference of two cells when both are numeric. -/
def absDiff : Value → Value → Option ℚ
  | .num x, .num y => some |x - y|
  | _, _ => none

/-- Pandas `(col_1 - col_2).abs().max()` under the guarding `try/except`: for numeric
column pairs the largest absolute difference (missing values skipped by `max`), and
`0` via the `except` branch when the subtraction raises. -/
def maxDiffOf (cols1 cols2 : List String) (inter : List (Row × Row)) (c : String) : ℚ :=
  if inter.all (fun pr =>
      isNumOrNull (cellOf cols1 pr.1 c) && isNumOrNull (cellOf cols2 pr.2 c)) then
    (inter.filterMap (fun pr => absDiff (cellOf cols1 pr.1 c) (cellOf cols2 pr.2 c))).foldr
      max 0
  else 0

/-- One entry of `column_stats` as appended by `Compare._intersect_compare`. -/
structure ColumnStat where
  column : String
  match_cnt : Nat
  unequal_cnt : Nat
  dtype1 : String
  dtype2 : String
  all_match : Bool
  max_diff : ℚ
  null_diff : Nat
deriving DecidableEq, Repr

/-- Stats for one shared column: join-key columns short-circuit with
`match_cnt = row_cnt` and zero diffs, other columns count `columns_equal` matches;
`all_match` is `all((dtype1 == dtype2, row_cnt == match_cnt))`. -/
def columnStat (df1 df2 : DataFrame) (joinCols : List String)
    (inter : List (Row × Row)) (rel_tol abs_tol : ℚ) (column : String) : ColumnStat :=
  let row_cnt := inter.length
  let match_cnt := if column ∈ joinCols then row_cnt else
    inter.countP (fun pr =>
      columns_equal (cellOf df1.cols pr.1 column) (cellOf df2.cols pr.2 column)
        rel_tol abs_tol)
  { column := column
    match_cnt := match_cnt
    unequal_cnt := row_cnt - match_cnt
    dtype1 := dtypeOf df1 column
    dtype2 := dtypeOf df2 column
    all_match := decide (dtypeOf df1 column = dtypeOf df2 column) &&
      decide (row_cnt = match_cnt)
    max_diff := if column ∈ joinCols then 0 else maxDiffOf df1.cols df2.cols inter column
    null_diff := if column ∈ joinCols then 0 else nullDiffOf df1.cols df2.cols inter column }

/-- Shared column names, `set(df1.columns) & set(df2.columns)` (listed in df1 order). -/
def intersect_columns (df1 df2 : DataFrame) : List String :=
  df1.cols.filter (fun c => decide (c ∈ df2.cols))

/-- Output of `Compare._dataframe_merge`: the three partitions, plus the final
states of the two input dataframes (temporary columns attached and dropped again). -/
structure MergeOut where
  df1_unq_rows : List Row
  df2_unq_rows : List Row
  intersect_rows : List (Row × Row)
  df1_post : DataFrame
  df2_post : DataFrame

/-- `Compare._dataframe_merge`: full outer join of the two dataframes on the join
columns (or on the index), with the synthesized order column appended to the join
key when either side has duplicate keys.  In the duplicate case the temporary
index/order columns are attached to the callers' dataframes and dropped again after
the merge, and the order component is stripped from all partitions. -/
def dataframe_merge (onIdx : Bool) (joinCols : List String) (df1 df2 : DataFrame) :
    MergeOut :=
  let key1 := rowKey onIdx df1.cols joinCols
  let key2 := rowKey onIdx df2.cols joinCols
  if hasDupKeys key1 df1.rows || hasDupKeys key2 df2.rows then
    let r1 := ranked key1 df1.rows
    let r2 := ranked key2 df2.rows
    let ic := temp_column_name df1 df2
    let d1a := if onIdx then addCol df1 ic "object" (df1.rows.map Row.idx) else df1
    let d2a := if onIdx then addCol df2 ic "object" (df2.rows.map Row.idx) else df2
    let oc := temp_column_name d1a d2a
    let d1b := addCol d1a oc "int64" (rankVals key1 df1.rows)
    let d2b := addCol d2a oc "int64" (rankVals key2 df2.rows)
    { df1_unq_rows := (joinLeftOnly (augKey key1) (augKey key2) r1 r2).map (fun p => p.1)
      df2_unq_rows := (joinRightOnly (augKey key1) (augKey key2) r1 r2).map (fun p => p.1)
      intersect_rows :=
        (joinBoth (augKey key1) (augKey key2) r1 r2).map (fun pq => (pq.1.1, pq.2.1))
      df1_post := if onIdx then dropCol (dropCol d1b ic) oc else dropCol d1b oc
      df2_post := if onIdx then dropCol (dropCol d2b ic) oc else dropCol d2b oc }
  else
    { df1_unq_rows := joinLeftOnly key1 key2 df1.rows df2.rows
      df2_unq_rows := joinRightOnly key1 key2 df1.rows df2.rows
      intersect_rows := joinBoth key1 key2 df1.rows df2.rows
      df1_post := df1
      df2_post := df2 }

/-- Errors raised by `Compare.__init__` before any comparison output exists. -/
inductive CompareError where
  | bothJoinModes : CompareError
  | noJoinMode : CompareError
  | missingJoinColumns : CompareError
  | duplicateColumnNames : CompareError
deriving DecidableEq, Repr

/-- Join-mode resolution performed first in `Compare.__init__`: providing both
`join_columns` and `on_index=True` raises `Exception('Only provide on_index or
join_columns')`; providing neither makes the lowering loop iterate `None` and raise
a `TypeError`; otherwise the join columns are lower-cased. -/
def resolveConfig (join_columns : Option (List String)) (on_index : Bool) :
    Except CompareError (List String × Bool) :=
  match on_index, join_columns with
  | true, some _ => .error .bothJoinModes
  | true, none => .ok ([], true)
  | false, some jc => .ok (jc.map strLower, false)
  | false, none => .error .noJoinMode

/-- `Compare._validate_dataframe`: lower-case the column names in place, require all
join columns present, require unique column names.  (The `isinstance` check has no
counterpart here: every `DataFrame` value is a dataframe.) -/
def validate (joinCols : List String) (df : DataFrame) : Except CompareError DataFrame :=
  let d := lowerCols df
  if !(joinCols.all (fun c => decide (c ∈ d.cols))) then .error .missingJoinColumns
  else if !(decide d.cols.Nodup) then .error .duplicateColumnNames
  else .ok d

/-- All tolerance-independent state of a comparison: the validated dataframes'
final states and the join partitions. -/
structure Prepared where
  df1 : DataFrame
  df2 : DataFrame
  join_columns : List String
  on_index : Bool
  df1_unq_rows : List Row
  df2_unq_rows : List Row
  intersect_rows : List (Row × Row)
deriving DecidableEq, Repr

/-- Packaging of the merge output into the tolerance-independent state. -/
def assemble (jc : List String) (onIdx : Bool) (v1 v2 : DataFrame) : Prepared :=
  let m := dataframe_merge onIdx jc v1 v2
  { df1 := m.df1_post, df2 := m.df2_post, join_columns := jc, on_index := onIdx,
    df1_unq_rows := m.df1_unq_rows, df2_unq_rows := m.df2_unq_rows,
    intersect_rows := m.intersect_rows }

/-- Tolerance-independent part of `Compare.__init__`: configuration resolution,
validation of both dataframes (in that order), then `_dataframe_merge`; the first
raised error aborts everything after it. -/
def prepare (df1 df2 : DataFrame) (join_columns : Option (List String))
    (on_index : Bool) : Except CompareError Prepared :=
  match resolveConfig join_columns on_index with
  | .error e => .error e
  | .ok cfg =>
    match validate cfg.1 df1 with
    | .error e => .error e
    | .ok v1 =>
      match validate cfg.1 df2 with
      | .error e => .error e
      | .ok v2 => .ok (assemble cfg.1 cfg.2 v1 v2)

/-- A completed `Compare` object: the dataframes as left by validation and the
merge, the configuration, the three partitions, and the per-column statistics. -/
structure Comparison where
  df1 : DataFrame
  df2 : DataFrame
  join_columns : List String
  on_index : Bool
  abs_tol : ℚ
  rel_tol : ℚ
  df1_unq_rows : List Row
  df2_unq_rows : List Row
  intersect_rows : List (Row × Row)
  column_stats : List ColumnStat
deriving DecidableEq, Repr

/-- `Compare._intersect_compare` over the prepared join: one `column_stats` entry
per shared column, then the finished comparison object. -/
def finishCompare (p : Prepared) (abs_tol rel_tol : ℚ) : Comparison :=
  { df1 := p.df1, df2 := p.df2, join_columns := p.join_columns, on_index := p.on_index,
    abs_tol := abs_tol, rel_tol := rel_tol,
    df1_unq_rows := p.df1_unq_rows, df2_unq_rows := p.df2_unq_rows,
    intersect_rows := p.intersect_rows,
    column_stats := (intersect_columns p.df1 p.df2).map
      (columnStat p.df1 p.df2 p.join_columns p.intersect_rows rel_tol abs_tol) }

/-- `Compare.__init__`: configuration, validation, join, column statistics.  A
raised error yields no comparison object at all. -/
def mkCompare (df1 df2 : DataFrame) (join_columns : Option (List String))
    (on_index : Bool) (abs_tol rel_tol : ℚ) : Except CompareError Comparison :=
  (prepare df1 df2 join_columns on_index).map (fun p => finishCompare p abs_tol rel_tol)

/-- `Compare.df1_unq_columns()`: columns of df1 absent from df2. -/
def Comparison.df1_unq_columns (c : Comparison) : List String :=
  c.df1.cols.filter (fun x => !(decide (x ∈ c.df2.cols)))

/-- `Compare.df2_unq_columns()`: columns of df2 absent from df1. -/
def Comparison.df2_unq_columns (c : Comparison) : List String :=
  c.df2.cols.filter (fun x => !(decide (x ∈ c.df1.cols)))

/-- Python set equality, for `==` between column-name sets. -/
def setEqB (a b : List String) : Bool :=
  a.all (fun x => decide (x ∈ b)) && b.all (fun x => decide (x ∈ a))

/-- `Compare.all_columns_match`: the chained comparison
`df1_unq_columns() == df2_unq_columns() == set()`. -/
def Comparison.all_columns_match (c : Comparison) : Bool :=
  setEqB c.df1_unq_columns c.df2_unq_columns && setEqB c.df2_unq_columns []

/-- `Compare.all_rows_overlap`: `len(df1_unq_rows) == len(df2_unq_rows) == 0`. -/
def Comparison.all_rows_overlap (c : Comparison) : Bool :=
  decide (c.df1_unq_rows.length = c.df2_unq_rows.length) &&
    decide (c.df2_unq_rows.length = 0)

/-- Per-pair match value of one shared column, as `_intersect_compare` stores it in
the `_match` columns: `columns_equal(row[col + '_df1'], row[col + '_df2'],
rel_tol, abs_tol)`. -/
def colMatchB (c : Comparison) (column : String) (pr : Row × Row) : Bool :=
  columns_equal (cellOf c.df1.cols pr.1 column) (cellOf c.df2.cols pr.2 column)
    c.rel_tol c.abs_tol

/-- The shared non-key columns whose `_match` values `count_matching_rows` conjoins. -/
def matchColumnsOf (c : Comparison) : List String :=
  (intersect_columns c.df1 c.df2).filter (fun col => !(decide (col ∈ c.join_columns)))

/-- `Compare.count_matching_rows()`. -/
def Comparison.count_matching_rows (c : Comparison) : Nat :=
  c.intersect_rows.countP (fun pr => (matchColumnsOf c).all (fun col => colMatchB c col pr))

/-- `Compare.intersect_rows_match()`. -/
def Comparison.intersect_rows_match (c : Comparison) : Bool :=
  decide (c.count_matching_rows = c.intersect_rows.length)

/-- `Compare.matches(ignore_extra_columns)`. -/
def Comparison.matches (c : Comparison) (ignore_extra_columns : Bool) : Bool :=
  if !ignore_extra_columns && !c.all_columns_match then false
  else if !c.all_rows_overlap then false
  else if !c.intersect_rows_match then false
  else true

/-- `Compare.subset()`. -/
def Comparison.subset (c : Comparison) : Bool :=
  if !(setEqB c.df2_unq_columns []) then false
  else if !(decide (c.df2_unq_rows.length = 0)) then false
  else if !c.intersect_rows_match then false
  else true

/-- `Compare.sample_mismatch(column, sample_count)`: `sample_count` is clamped to
the number of mismatching matched rows, and the pandas `.sample` draw without
replacement is modelled as taking a prefix of the mismatching rows. -/
def Comparison.sample_mismatch (c : Comparison) (column : String)
    (sample_count : Nat) : List (Row × Row) :=
  let row_cnt := c.intersect_rows.length
  let match_cnt := c.intersect_rows.countP (colMatchB c column)
  let n := min sample_count (row_cnt - match_cnt)
  (c.intersect_rows.filter (fun pr => !(colMatchB c column pr))).take n

/-- C1: for every matched row pair and every shared non-key column, the per-row
equality value follows the priority rule — both values null means equal; exactly
one null means not equal; both numeric means equal iff
`abs(left - right) <= abs_tol + rel_tol * abs(right)`, the tolerance scaled by the
second (df2) value, as the concrete asymmetric instance at the end shows;
otherwise exact value equality is used and incompatible types never raise. -/
theorem C1_columns_equal_priority_rule (x y : ℚ) (s t : String) (rel tol : ℚ) :
    columns_equal Value.null Value.null rel tol = true ∧
    columns_equal (Value.num x) Value.null rel tol = false ∧
    columns_equal (Value.str s) Value.null rel tol = false ∧
    columns_equal Value.null (Value.num y) rel tol = false ∧
    columns_equal Value.null (Value.str t) rel tol = false ∧
    (columns_equal (Value.num x) (Value.num y) rel tol = true ↔
      |x - y| ≤ tol + rel * |y|) ∧
    columns_equal (Value.str s) (Value.str t) rel tol = decide (s = t) ∧
    columns_equal (Value.num x) (Value.str t) rel tol = false ∧
    columns_equal (Value.str s) (Value.num y) rel tol = false ∧
    columns_equal (Value.num 0) (Value.num 100) 1 0 = true ∧
    columns_equal (Value.num 100) (Value.num 0) 1 0 = false := by
  refine ⟨rfl, rfl, rfl, rfl, rfl, ?_, rfl, rfl, rfl, ?_, ?_⟩
  · simp [columns_equal]
  · decide
  · decide

/-- C7: specifying both join modes, or specifying neither, is an error raised while
the inputs are accepted: `mkCompare` returns the error and never a comparison
object, so no comparison output exists for such configurations. -/
theorem C7_validation_eager (df1 df2 : DataFrame) (jc : List String) (a r : ℚ) :
    mkCompare df1 df2 (some jc) true a r = .error .bothJoinModes ∧
    mkCompare df1 df2 none false a r = .error .noJoinMode :=
  ⟨rfl, rfl⟩

/-- C3: `matches(ignore_extra_columns)` is exactly
`(ignore_extra_columns OR all_columns_match) AND all_rows_overlap AND
intersect_rows_match`, where `all_columns_match` holds iff both unique-column sets
are empty and `all_rows_overlap` holds iff both `-only` partitions are empty. -/
theorem C3_matches_formula (c : Comparison) (ig : Bool) :
    c.matches ig = ((ig || c.all_columns_match) && c.all_rows_overlap &&
        c.intersect_rows_match) ∧
      (c.all_columns_match = true ↔
        c.df1_unq_columns = [] ∧ c.df2_unq_columns = []) ∧
      (c.all_rows_overlap = true ↔
        c.df1_unq_rows = [] ∧ c.df2_unq_rows = []) := by
  refine ⟨?_, ?_, ?_⟩
  · unfold Comparison.matches
    cases ig <;> cases hacm : c.all_columns_match <;>
      cases haro : c.all_rows_overlap <;> cases hirm : c.intersect_rows_match <;>
      simp [hacm, haro, hirm]
  · constructor
    · intro h
      unfold Comparison.all_columns_match at h
      simp only [setEqB, Bool.and_eq_true, List.all_eq_true] at h
      obtain ⟨⟨h12, _⟩, ⟨h2e, _⟩⟩ := h
      have h2 : c.df2_unq_columns = [] := by
        cases hh : c.df2_unq_columns with
        | nil => rfl
        | cons a u =>
          exfalso
          have := h2e a (by rw [hh]; exact List.mem_cons_self a u)
          simp at this
      have h1 : c.df1_unq_columns = [] := by
        cases hh : c.df1_unq_columns with
        | nil => rfl
        | cons a u =>
          exfalso
          have hmem := h12 a (by rw [hh]; exact List.mem_cons_self a u)
          rw [h2] at hmem
          simp at hmem
      exact ⟨h1, h2⟩
    · rintro ⟨h1, h2⟩
      unfold Comparison.all_columns_match
      rw [h1, h2]
      rfl
  · constructor
    · intro h
      unfold Comparison.all_rows_overlap at h
      simp only [Bool.and_eq_true, decide_eq_true_eq] at h
      obtain ⟨h12, h2⟩ := h
      exact ⟨List.length_eq_zero.mp (h12.trans h2), List.length_eq_zero.mp h2⟩
    · rintro ⟨h1, h2⟩
      unfold Comparison.all_rows_overlap
      rw [h1, h2]
      rfl

/-- C4: `subset()` holds iff df2 contributes no extra columns, no right-only rows,
and every matched row pair agrees on all compared non-key columns; in particular it
is false whenever a right-only row exists. -/
theorem C4_subset (c : Comparison) :
    (c.subset = true ↔
      c.df2_unq_columns = [] ∧ c.df2_unq_rows = [] ∧
        ∀ pr ∈ c.intersect_rows,
          (matchColumnsOf c).all (fun col => colMatchB c col pr) = true) ∧
    (c.df2_unq_rows ≠ [] → c.subset = false) := by
  have hirm : c.intersect_rows_match = true ↔
      ∀ pr ∈ c.intersect_rows,
        (matchColumnsOf c).all (fun col => colMatchB c col pr) = true := by
    unfold Comparison.intersect_rows_match Comparison.count_matching_rows
    rw [decide_eq_true_iff]
    exact List.countP_eq_length
  constructor
  · constructor
    · intro h
      unfold Comparison.subset at h
      by_cases hcols : setEqB c.df2_unq_columns [] = true
      · by_cases hrows : c.df2_unq_rows.length = 0
        · by_cases hm : c.intersect_rows_match = true
          · refine ⟨?_, List.length_eq_zero.mp hrows, hirm.mp hm⟩
            simp only [setEqB, Bool.and_eq_true, List.all_eq_true] at hcols
            cases hh : c.df2_unq_columns with
            | nil => rfl
            | cons a u =>
              exfalso
              have := hcols.1 a (by rw [hh]; exact List.mem_cons_self a u)
              simp at this
          · rw [if_neg (by simp [hcols]), if_neg (by simp [hrows]),
              if_pos (by simp [Bool.eq_false_iff.mpr hm])] at h
            cases h
        · rw [if_neg (by simp [hcols]), if_pos (by simpa using hrows)] at h
          cases h
      · rw [if_pos (by simpa using hcols)] at h
        cases h
    · rintro ⟨h1, h2, h3⟩
      unfold Comparison.subset
      rw [h1, h2]
      have hm : c.intersect_rows_match = true := hirm.mpr h3
      rw [hm]
      rfl
  · intro hne
    unfold Comparison.subset
    have hlen : ¬ c.df2_unq_rows.length = 0 := by
      intro hh
      exact hne (List.length_eq_zero.mp hh)
    by_cases hcols : setEqB c.df2_unq_columns [] = true
    · rw [if_neg (by simp [hcols]), if_pos (by simpa using hlen)]
    · rw [if_pos (by simpa using hcols)]

/-- Concrete comparison with one right-only row, for the C4 witness. -/
def c4w : Comparison :=
  { df1 := { cols := ["id"], dtypes := ["int64"], rows := [] },
    df2 := { cols := ["id"], dtypes := ["int64"],
             rows := [⟨Value.num 0, [Value.num 1]⟩] },
    join_columns := ["id"], on_index := false, abs_tol := 0, rel_tol := 0,
    df1_unq_rows := [], df2_unq_rows := [⟨Value.num 0, [Value.num 1]⟩],
    intersect_rows := [], column_stats := [] }

/-- Witness for C4: a comparison with a right-only row is not a subset. -/
theorem C4_subset_witness : c4w.df2_unq_rows ≠ [] ∧ c4w.subset = false :=
  ⟨by decide, (C4_subset c4w).2 (by decide)⟩

theorem length_countP_split {α : Type} (l : List α) (p : α → Bool) :
    l.length = l.countP p + l.countP (fun x => !(p x)) := by
  induction l with
  | nil => rfl
  | cons a t ih =>
    by_cases h : p a <;> simp [List.countP_cons, h, ih] <;> omega

theorem length_sub_countP {α : Type} (l : List α) (p : α → Bool) :
    l.length - l.countP p = (l.filter (fun x => !(p x))).length := by
  have h := length_countP_split l p
  rw [← List.countP_eq_length_filter]
  omega

/-- C8: for a shared non-key column, `sample_mismatch(column, sample_count)` returns
exactly `min(sample_count, mismatch count)` rows — the full mismatch count when
`sample_count` exceeds it (zero when there are no mismatches) — it is total (never
raises), and it never selects the same matched row twice: the sample is a sublist
of the mismatching rows. -/
theorem C8_sample_mismatch_clamped (c : Comparison) (column : String) (n : Nat)
    (hcol : column ∈ intersect_columns c.df1 c.df2)
    (hkey : column ∉ c.join_columns) :
    (c.sample_mismatch column n).length =
      min n ((c.intersect_rows.filter (fun pr => !(colMatchB c column pr))).length) ∧
    (c.sample_mismatch column n).Sublist
      (c.intersect_rows.filter (fun pr => !(colMatchB c column pr))) ∧
    ((c.intersect_rows.filter (fun pr => !(colMatchB c column pr))).length ≤ n →
      (c.sample_mismatch column n).length =
        (c.intersect_rows.filter (fun pr => !(colMatchB c column pr))).length) := by
  have hclamp : c.intersect_rows.length - c.intersect_rows.countP (colMatchB c column) =
      (c.intersect_rows.filter (fun pr => !(colMatchB c column pr))).length :=
    length_sub_countP _ _
  simp only [Comparison.sample_mismatch]
  rw [hclamp]
  refine ⟨?_, List.take_sublist _ _, ?_⟩
  · rw [List.length_take]
    omega
  · intro hle
    rw [List.length_take]
    omega

/-- Concrete comparison for the C8 witness: two matched rows, one mismatching on
`val`, sampled with `sample_count` larger than the mismatch count. -/
def c8w : Comparison :=
  { df1 := { cols := ["id", "val"], dtypes := ["int64", "int64"], rows := [] },
    df2 := { cols := ["id", "val"], dtypes := ["int64", "int64"], rows := [] },
    join_columns := ["id"], on_index := false, abs_tol := 0, rel_tol := 0,
    df1_unq_rows := [], df2_unq_rows := [],
    intersect_rows :=
      [(⟨Value.num 0, [Value.num 1, Value.num 5]⟩, ⟨Value.num 0, [Value.num 1, Value.num 5]⟩),
       (⟨Value.num 1, [Value.num 2, Value.num 6]⟩, ⟨Value.num 1, [Value.num 2, Value.num 7]⟩)],
    column_stats := [] }

/-- Witness for C8: `sample_count = 5` exceeds the single mismatch, and exactly one
row comes back. -/
theorem C8_sample_mismatch_witness :
    "val" ∈ intersect_columns c8w.df1 c8w.df2 ∧ "val" ∉ c8w.join_columns ∧
      (c8w.sample_mismatch "val" 5).length = 1 := by
  refine ⟨by decide, by decide, ?_⟩
  have h := (C8_sample_mismatch_clamped c8w "val" 5 (by decide) (by decide)).1
  rw [h]
  decide

theorem except_map_ok {ε α β : Type} {f : α → β} {e : Except ε α} {b : β}
    (h : e.map f = .ok b) : ∃ a, e = .ok a ∧ b = f a := by
  cases e with
  | error err => simp [Except.map] at h
  | ok a =>
    refine ⟨a, rfl, ?_⟩
    simp [Except.map] at h
    exact h.symm

theorem validate_ok {jc : List String} {df v : DataFrame}
    (h : validate jc df = .ok v) :
    v = lowerCols df ∧
      (jc.all (fun c => decide (c ∈ (lowerCols df).cols))) = true ∧
      (lowerCols df).cols.Nodup := by
  simp only [validate] at h
  cases hall : jc.all (fun c => decide (c ∈ (lowerCols df).cols)) with
  | false => simp [hall] at h
  | true =>
    simp only [hall, Bool.not_true, Bool.false_eq_true, if_false] at h
    cases hnd : decide (lowerCols df).cols.Nodup with
    | false => simp [hnd] at h
    | true =>
      simp only [hnd, Bool.not_true, Bool.false_eq_true, if_false] at h
      cases h
      exact ⟨rfl, rfl, of_decide_eq_true hnd⟩

/-- Inversion of `mkCompare`: every successfully built comparison is the finished
form of the resolved configuration, the validated (lower-cased) dataframes, and the
merge partitions. -/
theorem mkCompare_ok {df1 df2 : DataFrame} {jc? : Option (List String)} {oi : Bool}
    {a r : ℚ} {c : Comparison} (h : mkCompare df1 df2 jc? oi a r = .ok c) :
    ∃ jc onIdx, resolveConfig jc? oi = .ok (jc, onIdx) ∧
      validate jc df1 = .ok (lowerCols df1) ∧
      validate jc df2 = .ok (lowerCols df2) ∧
      c = finishCompare (assemble jc onIdx (lowerCols df1) (lowerCols df2)) a r := by
  unfold mkCompare at h
  obtain ⟨p, hp, hc⟩ := except_map_ok h
  unfold prepare at hp
  cases hcfg : resolveConfig jc? oi with
  | error e =>
    rw [hcfg] at hp
    exact Except.noConfusion hp
  | ok cfg =>
    rw [hcfg] at hp
    dsimp only at hp
    cases hv1 : validate cfg.1 df1 with
    | error e =>
      rw [hv1] at hp
      exact Except.noConfusion hp
    | ok v1 =>
      rw [hv1] at hp
      dsimp only at hp
      cases hv2 : validate cfg.1 df2 with
      | error e =>
        rw [hv2] at hp
        exact Except.noConfusion hp
      | ok v2 =>
        rw [hv2] at hp
        dsimp only at hp
        have hpe : assemble cfg.1 cfg.2 v1 v2 = p := by
          injection hp
        obtain ⟨hv1e, _, _⟩ := validate_ok hv1
        obtain ⟨hv2e, _, _⟩ := validate_ok hv2
        refine ⟨cfg.1, cfg.2, ?_, ?_, ?_, ?_⟩
        · rfl
        · rw [hv1, hv1e]
        · rw [hv2, hv2e]
        · rw [hc, ← hpe, hv1e, hv2e]

theorem ranked_length (key : Row → List Value) (rows : List Row) :
    (ranked key rows).length = rows.length := by
  simp [ranked]

theorem rowKey_length_const (onIdx : Bool) (cols jc : List String) (r s : Row) :
    (rowKey onIdx cols jc r).length = (rowKey onIdx cols jc s).length := by
  cases onIdx <;> simp [rowKey]

theorem hasDupKeys_false {key : Row → List Value} {rows : List Row}
    (h : hasDupKeys key rows = false) : (rows.map key).Nodup := by
  simp [hasDupKeys] at h
  exact h

/-- The `_dataframe_merge` partitions are row-complete on both sides: with unique
keys the outer join is one-to-one, and with duplicate keys the augmented
`(key, rank)` keys are unique, so the identity holds in both branches. -/
theorem dataframe_merge_partition (onIdx : Bool) (jc : List String)
    (df1 df2 : DataFrame) :
    df1.rows.length = (dataframe_merge onIdx jc df1 df2).df1_unq_rows.length +
        (dataframe_merge onIdx jc df1 df2).intersect_rows.length ∧
      df2.rows.length = (dataframe_merge onIdx jc df1 df2).df2_unq_rows.length +
        (dataframe_merge onIdx jc df1 df2).intersect_rows.length := by
  cases hdup : (hasDupKeys (rowKey onIdx df1.cols jc) df1.rows ||
      hasDupKeys (rowKey onIdx df2.cols jc) df2.rows) with
  | true =>
    have hnd1 : ((ranked (rowKey onIdx df1.cols jc) df1.rows).map
        (augKey (rowKey onIdx df1.cols jc))).Nodup :=
      ranked_augKey_nodup (fun r s => rowKey_length_const onIdx df1.cols jc r s)
    have hnd2 : ((ranked (rowKey onIdx df2.cols jc) df2.rows).map
        (augKey (rowKey onIdx df2.cols jc))).Nodup :=
      ranked_augKey_nodup (fun r s => rowKey_length_const onIdx df2.cols jc r s)
    have hL := length_joinLeftOnly_add_joinBoth
      (augKey (rowKey onIdx df1.cols jc)) (augKey (rowKey onIdx df2.cols jc))
      (ranked (rowKey onIdx df1.cols jc) df1.rows)
      (ranked (rowKey onIdx df2.cols jc) df2.rows) hnd2
    have hR := length_joinRightOnly_add_joinBoth
      (augKey (rowKey onIdx df1.cols jc)) (augKey (rowKey onIdx df2.cols jc))
      (ranked (rowKey onIdx df1.cols jc) df1.rows)
      (ranked (rowKey onIdx df2.cols jc) df2.rows) hnd1
    rw [ranked_length] at hL hR
    simp only [dataframe_merge, hdup, if_true, List.length_map]
    exact ⟨hL, hR⟩
  | false =>
    rw [Bool.or_eq_false_iff] at hdup
    have h1 : (df1.rows.map (rowKey onIdx df1.cols jc)).Nodup := hasDupKeys_false hdup.1
    have h2 : (df2.rows.map (rowKey onIdx df2.cols jc)).Nodup := hasDupKeys_false hdup.2
    have hcond : (hasDupKeys (rowKey onIdx df1.cols jc) df1.rows ||
        hasDupKeys (rowKey onIdx df2.cols jc) df2.rows) = false := by
      rw [Bool.or_eq_false_iff]
      exact hdup
    simp only [dataframe_merge, hcond, Bool.false_eq_true, if_false]
    exact ⟨length_joinLeftOnly_add_joinBoth _ _ _ _ h2,
      length_joinRightOnly_add_joinBoth _ _ _ _ h1⟩

/-- C2: the outer join partitions the records: every left record lands in exactly
one of left-only and matched, every right record in exactly one of right-only and
matched, so the partition lengths sum to the input lengths — also when either
dataset has duplicate join-key values. -/
theorem C2_partition_lengths (df1 df2 : DataFrame) (jc? : Option (List String))
    (oi : Bool) (a r : ℚ) (c : Comparison)
    (h : mkCompare df1 df2 jc? oi a r = .ok c) :
    df1.rows.length = c.df1_unq_rows.length + c.intersect_rows.length ∧
    df2.rows.length = c.df2_unq_rows.length + c.intersect_rows.length := by
  obtain ⟨jc, onIdx, hcfg, hv1, hv2, hceq⟩ := mkCompare_ok h
  subst hceq
  exact dataframe_merge_partition onIdx jc (lowerCols df1) (lowerCols df2)

/-- Placeholder comparison for total extraction from `Except`. -/
def emptyComparison : Comparison :=
  { df1 := ⟨[], [], []⟩, df2 := ⟨[], [], []⟩, join_columns := [], on_index := false,
    abs_tol := 0, rel_tol := 0, df1_unq_rows := [], df2_unq_rows := [],
    intersect_rows := [], column_stats := [] }

/-- Total extraction of a built comparison. -/
def getOkC (e : Except CompareError Comparison) : Comparison :=
  match e with
  | .ok c => c
  | .error _ => emptyComparison

/-- Left dataset of the C2 witness: duplicate join key `id = 1`. -/
def d2a : DataFrame :=
  { cols := ["id", "val"], dtypes := ["int64", "int64"],
    rows := [⟨Value.num 0, [Value.num 1, Value.num 10]⟩,
             ⟨Value.num 1, [Value.num 1, Value.num 11]⟩,
             ⟨Value.num 2, [Value.num 2, Value.num 12]⟩] }

/-- Right dataset of the C2 witness. -/
def d2b : DataFrame :=
  { cols := ["id", "val"], dtypes := ["int64", "int64"],
    rows := [⟨Value.num 0, [Value.num 1, Value.num 10]⟩,
             ⟨Value.num 1, [Value.num 3, Value.num 13]⟩] }

/-- The comparison built from the C2 witness datasets. -/
def c2w : Comparison := getOkC (mkCompare d2a d2b (some ["id"]) false 0 0)

/-- Witness for C2: with a duplicated join key on the left, `3 = 2 + 1` and
`2 = 1 + 1`. -/
theorem C2_partition_lengths_witness :
    mkCompare d2a d2b (some ["id"]) false 0 0 = .ok c2w ∧
    d2a.rows.length = c2w.df1_unq_rows.length + c2w.intersect_rows.length ∧
    d2b.rows.length = c2w.df2_unq_rows.length + c2w.intersect_rows.length :=
  ⟨rfl, C2_partition_lengths d2a d2b (some ["id"]) false 0 0 c2w rfl⟩

/-- Comparing a dataframe against itself: no orphans and identical pairing, in both
the duplicate-keys branch (via rank augmentation) and the unique-keys branch. -/
theorem dataframe_merge_self (onIdx : Bool) (jc : List String) (df : DataFrame) :
    (dataframe_merge onIdx jc df df).df1_unq_rows = [] ∧
    (dataframe_merge onIdx jc df df).df2_unq_rows = [] ∧
    (dataframe_merge onIdx jc df df).intersect_rows.length = df.rows.length ∧
    ∀ pr ∈ (dataframe_merge onIdx jc df df).intersect_rows, pr.1 = pr.2 := by
  cases hdup : (hasDupKeys (rowKey onIdx df.cols jc) df.rows ||
      hasDupKeys (rowKey onIdx df.cols jc) df.rows) with
  | true =>
    have hnd : ((ranked (rowKey onIdx df.cols jc) df.rows).map
        (augKey (rowKey onIdx df.cols jc))).Nodup :=
      ranked_augKey_nodup (fun r s => rowKey_length_const onIdx df.cols jc r s)
    obtain ⟨hl, hr, hlen, hpair⟩ := self_join hnd
    simp only [dataframe_merge, hdup, if_true, hl, hr, List.map_nil, List.length_map]
    refine ⟨trivial, trivial, ?_, ?_⟩
    · rw [hlen, ranked_length]
    · intro pr hpr
      obtain ⟨pq, hpq, hpqe⟩ := List.mem_map.mp hpr
      have hq := hpair pq hpq
      rw [← hpqe, hq]
  | false =>
    rw [Bool.or_eq_false_iff] at hdup
    have hnd : (df.rows.map (rowKey onIdx df.cols jc)).Nodup := hasDupKeys_false hdup.1
    obtain ⟨hl, hr, hlen, hpair⟩ := self_join hnd
    have hcond : (hasDupKeys (rowKey onIdx df.cols jc) df.rows ||
        hasDupKeys (rowKey onIdx df.cols jc) df.rows) = false := by
      rw [Bool.or_eq_false_iff]
      exact hdup
    simp only [dataframe_merge, hcond, Bool.false_eq_true, if_false]
    exact ⟨hl, hr, hlen, hpair⟩

/-- C5: comparing a dataset against itself — in particular one with duplicate
join-key values, including structurally identical rows sharing a key — reports no
left-only and no right-only rows and matches every record; the synthesized rank
pairs each record exactly with itself (its identical-rank counterpart), so no
duplicate is orphaned. -/
theorem C5_self_comparison_duplicates (d : DataFrame) (jc? : Option (List String))
    (oi : Bool) (a r : ℚ) (c : Comparison)
    (h : mkCompare d d jc? oi a r = .ok c) :
    c.df1_unq_rows = [] ∧ c.df2_unq_rows = [] ∧
      c.intersect_rows.length = d.rows.length ∧
      ∀ pr ∈ c.intersect_rows, pr.1 = pr.2 := by
  obtain ⟨jc, onIdx, hcfg, hv1, hv2, hceq⟩ := mkCompare_ok h
  subst hceq
  exact dataframe_merge_self onIdx jc (lowerCols d)

/-- C5 witness dataset: two structurally identical rows sharing the join key. -/
def d5 : DataFrame :=
  { cols := ["id", "val"], dtypes := ["int64", "int64"],
    rows := [⟨Value.num 0, [Value.num 1, Value.num 5]⟩,
             ⟨Value.num 1, [Value.num 1, Value.num 5]⟩] }

/-- The comparison of the C5 witness dataset against itself. -/
def c5w : Comparison := getOkC (mkCompare d5 d5 (some ["id"]) false 0 0)

/-- Witness for C5: both identical duplicates match, none is orphaned. -/
theorem C5_self_comparison_witness :
    mkCompare d5 d5 (some ["id"]) false 0 0 = .ok c5w ∧
    (c5w.df1_unq_rows = [] ∧ c5w.df2_unq_rows = [] ∧
      c5w.intersect_rows.length = d5.rows.length ∧
      ∀ pr ∈ c5w.intersect_rows, pr.1 = pr.2) :=
  ⟨rfl, C5_self_comparison_duplicates d5 (some ["id"]) false 0 0 c5w rfl⟩

theorem columns_equal_mono {v w : Value} {r r' t t' : ℚ} (hr : r ≤ r') (ht : t ≤ t')
    (h : columns_equal v w r t = true) : columns_equal v w r' t' = true := by
  cases v with
  | null => cases w <;> simp_all [columns_equal]
  | num x =>
    cases w with
    | null => simp_all [columns_equal]
    | num y =>
      simp only [columns_equal, decide_eq_true_eq] at h ⊢
      have hy : (0 : ℚ) ≤ |y| := abs_nonneg _
      calc |x - y| ≤ t + r * |y| := h
        _ ≤ t' + r' * |y| := add_le_add ht (mul_le_mul_of_nonneg_right hr hy)
    | str s => simp_all [columns_equal]
  | str s => cases w <;> simp_all [columns_equal]

theorem count_matching_rows_finish_mono (P : Prepared) {a r a' r' : ℚ}
    (ha : a ≤ a') (hr : r ≤ r') :
    (finishCompare P a r).count_matching_rows ≤
      (finishCompare P a' r').count_matching_rows := by
  simp only [Comparison.count_matching_rows, matchColumnsOf, colMatchB, finishCompare]
  apply List.countP_mono_left
  intro pr _ hall
  rw [List.all_eq_true] at hall ⊢
  intro col hcol
  exact columns_equal_mono hr ha (hall col hcol)

/-- C6: for fixed input datasets and join configuration, `count_matching_rows()` is
monotonically non-decreasing in the tolerances: widening `abs_tol` and `rel_tol`
(all non-negative) never decreases the count of fully matching rows. -/
theorem C6_tolerance_monotonicity (df1 df2 : DataFrame) (jc? : Option (List String))
    (oi : Bool) (a r a' r' : ℚ) (c c' : Comparison)
    (ha0 : 0 ≤ a) (hr0 : 0 ≤ r) (ha : a ≤ a') (hr : r ≤ r')
    (h : mkCompare df1 df2 jc? oi a r = .ok c)
    (h' : mkCompare df1 df2 jc? oi a' r' = .ok c') :
    c.count_matching_rows ≤ c'.count_matching_rows := by
  obtain ⟨jc, onIdx, hcfg, _, _, hceq⟩ := mkCompare_ok h
  obtain ⟨jc2, onIdx2, hcfg2, _, _, hceq'⟩ := mkCompare_ok h'
  rw [hcfg] at hcfg2
  injection hcfg2 with hpair
  have hjc : jc = jc2 := congrArg Prod.fst hpair
  have hoi : onIdx = onIdx2 := congrArg Prod.snd hpair
  subst hjc
  subst hoi
  subst hceq
  subst hceq'
  exact count_matching_rows_finish_mono _ ha hr

/-- Left dataset of the C6 witness. -/
def d6a : DataFrame :=
  { cols := ["id", "val"], dtypes := ["int64", "int64"],
    rows := [⟨Value.num 0, [Value.num 1, Value.num 0]⟩] }

/-- Right dataset of the C6 witness: `val` differs by 3. -/
def d6b : DataFrame :=
  { cols := ["id", "val"], dtypes := ["int64", "int64"],
    rows := [⟨Value.num 0, [Value.num 1, Value.num 3]⟩] }

/-- Comparison of the C6 witness datasets at zero tolerance. -/
def c6lo : Comparison := getOkC (mkCompare d6a d6b (some ["id"]) false 0 0)

/-- Comparison of the C6 witness datasets at `abs_tol = 5`. -/
def c6hi : Comparison := getOkC (mkCompare d6a d6b (some ["id"]) false 5 0)

/-- Witness for C6: raising `abs_tol` from 0 to 5 does not decrease the count. -/
theorem C6_tolerance_monotonicity_witness :
    (0 : ℚ) ≤ 5 ∧ mkCompare d6a d6b (some ["id"]) false 0 0 = .ok c6lo ∧
    mkCompare d6a d6b (some ["id"]) false 5 0 = .ok c6hi ∧
    c6lo.count_matching_rows ≤ c6hi.count_matching_rows :=
  ⟨by decide, rfl, rfl,
    C6_tolerance_monotonicity d6a d6b (some ["id"]) false 0 0 5 0 c6lo c6hi
      (le_refl 0) (le_refl 0) (by decide) (le_refl 0) rfl rfl⟩

theorem rankVals_length (key : Row → List Value) (rows : List Row) :
    (rankVals key rows).length = rows.length := by
  simp [rankVals, ranked_length]

theorem eraseIdx_append_len {α : Type} (l : List α) (x : α) (l2 : List α) :
    (l ++ x :: l2).eraseIdx l.length = l ++ l2 := by
  induction l with
  | nil => rfl
  | cons a t ih => simp [List.eraseIdx_cons_succ, ih]

theorem indexOf_append_of_not_mem {c : String} :
    ∀ {l : List String}, c ∉ l → ∀ (l2 : List String),
      (l ++ c :: l2).indexOf c = l.length := by
  intro l
  induction l with
  | nil =>
    intro _ l2
    simp
  | cons a t ih =>
    intro h l2
    have ha : a ≠ c := fun he => h (by rw [he]; exact List.mem_cons_self c t)
    have ht : c ∉ t := fun hm => h (List.mem_cons_of_mem _ hm)
    simp only [List.cons_append, List.indexOf_cons_ne _ ha, ih ht l2, List.length_cons]

theorem rows_roundtrip (n : Nat) :
    ∀ (rows : List Row) (vals : List Value),
      (∀ rr ∈ rows, rr.cells.length = n) → vals.length = rows.length →
      (((rows.zip vals).map (fun p => Row.mk p.1.idx (p.1.cells ++ [p.2]))).map
        (fun rr => Row.mk rr.idx (rr.cells.eraseIdx n))) = rows := by
  intro rows
  induction rows with
  | nil =>
    intro vals _ _
    rfl
  | cons rr t ih =>
    intro vals hcl hvl
    cases vals with
    | nil => simp at hvl
    | cons v vt =>
      have h1 : rr.cells.length = n := hcl rr (List.mem_cons_self rr t)
      have he : (rr.cells ++ [v]).eraseIdx n = rr.cells := by
        rw [← h1]
        simpa using eraseIdx_append_len rr.cells v []
      simp only [List.zip_cons_cons, List.map_cons]
      congr 1
      · show Row.mk rr.idx ((rr.cells ++ [v]).eraseIdx n) = rr
        rw [he]
      · exact ih vt (fun x hx => hcl x (List.mem_cons_of_mem _ hx)) (by simpa using hvl)

theorem rows_mid_roundtrip (n : Nat) :
    ∀ (rows : List Row) (iv ov : List Value),
      (∀ rr ∈ rows, rr.cells.length = n) → iv.length = rows.length →
      ov.length = rows.length →
      (((((rows.zip iv).map (fun p => Row.mk p.1.idx (p.1.cells ++ [p.2]))).zip ov).map
          (fun p => Row.mk p.1.idx (p.1.cells ++ [p.2]))).map
        (fun rr => Row.mk rr.idx (rr.cells.eraseIdx n))) =
      ((rows.zip ov).map (fun p => Row.mk p.1.idx (p.1.cells ++ [p.2]))) := by
  intro rows
  induction rows with
  | nil =>
    intro iv ov _ _ _
    rfl
  | cons rr t ih =>
    intro iv ov hcl hiv hov
    cases iv with
    | nil => simp at hiv
    | cons a u =>
      cases ov with
      | nil => simp at hov
      | cons b w =>
        have h1 : rr.cells.length = n := hcl rr (List.mem_cons_self rr t)
        have he : ((rr.cells ++ [a]) ++ [b]).eraseIdx n = rr.cells ++ [b] := by
          rw [← h1, List.append_assoc]
          exact eraseIdx_append_len rr.cells a [b]
        simp only [List.zip_cons_cons, List.map_cons]
        congr 1
        · show Row.mk rr.idx (((rr.cells ++ [a]) ++ [b]).eraseIdx n) =
            Row.mk rr.idx (rr.cells ++ [b])
          rw [he]
        · exact ih u w (fun x hx => hcl x (List.mem_cons_of_mem _ hx))
            (by simpa using hiv) (by simpa using hov)

/-- Attaching a fresh column and dropping it again leaves the dataframe unchanged. -/
theorem dropCol_addCol {df : DataFrame} {c dt : String} {vals : List Value}
    (hc : c ∉ df.cols) (hwf : df.WF) (hv : vals.length = df.rows.length) :
    dropCol (addCol df c dt vals) c = df := by
  obtain ⟨cols, dtypes, rows⟩ := df
  obtain ⟨hdt, hcl⟩ := hwf
  simp only [addCol, dropCol]
  have hidx : (cols ++ [c]).indexOf c = cols.length := by
    simpa using indexOf_append_of_not_mem hc []
  rw [hidx]
  simp only [DataFrame.mk.injEq]
  refine ⟨?_, ?_, ?_⟩
  · simpa using eraseIdx_append_len cols c []
  · rw [show cols.length = dtypes.length from hdt.symm]
    simpa using eraseIdx_append_len dtypes dt []
  · exact rows_roundtrip cols.length rows vals hcl hv

/-- Dropping the first of two freshly attached columns keeps exactly the second. -/
theorem dropCol_addCol_addCol {df : DataFrame} {ic dtI : String} {iv : List Value}
    {oc dtO : String} {ov : List Value}
    (hic : ic ∉ df.cols) (hwf : df.WF)
    (hiv : iv.length = df.rows.length) (hov : ov.length = df.rows.length) :
    dropCol (addCol (addCol df ic dtI iv) oc dtO ov) ic = addCol df oc dtO ov := by
  obtain ⟨cols, dtypes, rows⟩ := df
  obtain ⟨hdt, hcl⟩ := hwf
  simp only [addCol, dropCol]
  have hidx : ((cols ++ [ic]) ++ [oc]).indexOf ic = cols.length := by
    rw [List.append_assoc]
    exact indexOf_append_of_not_mem hic [oc]
  rw [hidx]
  simp only [DataFrame.mk.injEq]
  refine ⟨?_, ?_, ?_⟩
  · rw [List.append_assoc]
    exact eraseIdx_append_len cols ic [oc]
  · rw [List.append_assoc, show cols.length = dtypes.length from hdt.symm]
    exact eraseIdx_append_len dtypes dtI [dtO]
  · exact rows_mid_roundtrip cols.length rows iv ov hcl hiv hov

/-- The rows added by `addCol` keep their count. -/
theorem addCol_rows_length {df : DataFrame} {c dt : String} {vals : List Value}
    (hv : vals.length = df.rows.length) :
    (addCol df c dt vals).rows.length = df.rows.length := by
  simp only [addCol, List.length_map, List.length_zip, hv]
  omega

/-- After `_dataframe_merge` both input dataframes are back in their pre-merge
state: the temporary index and order columns have been removed again. -/
theorem dataframe_merge_post (onIdx : Bool) (jc : List String) {df1 df2 : DataFrame}
    (h1 : df1.WF) (h2 : df2.WF) :
    (dataframe_merge onIdx jc df1 df2).df1_post = df1 ∧
    (dataframe_merge onIdx jc df1 df2).df2_post = df2 := by
  cases hdup : (hasDupKeys (rowKey onIdx df1.cols jc) df1.rows ||
      hasDupKeys (rowKey onIdx df2.cols jc) df2.rows) with
  | false => simp [dataframe_merge, hdup]
  | true =>
    have hfresh1 : temp_column_name df1 df2 ∉ df1.cols := fun hm =>
      temp_column_name_fresh df1 df2 (List.mem_append_left _ hm)
    have hfresh2 : temp_column_name df1 df2 ∉ df2.cols := fun hm =>
      temp_column_name_fresh df1 df2 (List.mem_append_right _ hm)
    cases onIdx with
    | false =>
      simp only [dataframe_merge, hdup, if_true, Bool.false_eq_true, if_false]
      constructor
      · exact dropCol_addCol hfresh1 h1 (rankVals_length _ _)
      · exact dropCol_addCol hfresh2 h2 (rankVals_length _ _)
    | true =>
      simp only [dataframe_merge, hdup, if_true]
      have hoc1 : temp_column_name
          (addCol df1 (temp_column_name df1 df2) "object" (df1.rows.map Row.idx))
          (addCol df2 (temp_column_name df1 df2) "object" (df2.rows.map Row.idx)) ∉
          (addCol df1 (temp_column_name df1 df2) "object" (df1.rows.map Row.idx)).cols :=
        fun hm => temp_column_name_fresh _ _ (List.mem_append_left _ hm)
      have hoc2 : temp_column_name
          (addCol df1 (temp_column_name df1 df2) "object" (df1.rows.map Row.idx))
          (addCol df2 (temp_column_name df1 df2) "object" (df2.rows.map Row.idx)) ∉
          (addCol df2 (temp_column_name df1 df2) "object" (df2.rows.map Row.idx)).cols :=
        fun hm => temp_column_name_fresh _ _ (List.mem_append_right _ hm)
      have hoc1' : temp_column_name
          (addCol df1 (temp_column_name df1 df2) "object" (df1.rows.map Row.idx))
          (addCol df2 (temp_column_name df1 df2) "object" (df2.rows.map Row.idx)) ∉
          df1.cols := by
        intro hm
        exact hoc1 (by simp only [addCol]; exact List.mem_append_left _ hm)
      have hoc2' : temp_column_name
          (addCol df1 (temp_column_name df1 df2) "object" (df1.rows.map Row.idx))
          (addCol df2 (temp_column_name df1 df2) "object" (df2.rows.map Row.idx)) ∉
          df2.cols := by
        intro hm
        exact hoc2 (by simp only [addCol]; exact List.mem_append_left _ hm)
      constructor
      · rw [dropCol_addCol_addCol hfresh1 h1 (List.length_map _ _)
          (rankVals_length _ _)]
        exact dropCol_addCol hoc1' h1 (rankVals_length _ _)
      · rw [dropCol_addCol_addCol hfresh2 h2 (List.length_map _ _)
          (rankVals_length _ _)]
        exact dropCol_addCol hoc2' h2 (rankVals_length _ _)

/-- Uppercase-named column input for the C9 counterexample. -/
def dfU : DataFrame :=
  { cols := ["A"], dtypes := ["int64"], rows := [⟨Value.num 0, [Value.num 1]⟩] }

/-- Counterexample to C9 as stated: validation lower-cases the caller's column
names in place, so after construction the dataset holds column `"a"` and no longer
exactly the columns it held before (`["A"]`). -/
theorem C9_counterexample :
    (mkCompare dfU dfU (some ["A"]) false 0 0).map (fun c => c.df1.cols) =
      .ok ["a"] ∧
    dfU.cols = ["A"] ∧ (["a"] : List String) ≠ ["A"] :=
  ⟨rfl, rfl, by decide⟩

theorem lowerCols_WF {df : DataFrame} (h : df.WF) : (lowerCols df).WF := by
  obtain ⟨hd, hc⟩ := h
  exact ⟨by simpa [lowerCols] using hd, by simpa [lowerCols] using hc⟩

/-- C9 (amended): a comparison leaves the callers' dataframes with their original
rows and dtypes and with no temporary index or ranking columns — those are removed
again before any result is exposed; the only schema mutation is the in-place
lower-casing of the column names performed by validation. -/
theorem C9_no_schema_mutation_amended (df1 df2 : DataFrame)
    (jc? : Option (List String)) (oi : Bool) (a r : ℚ) (c : Comparison)
    (h1 : df1.WF) (h2 : df2.WF) (h : mkCompare df1 df2 jc? oi a r = .ok c) :
    c.df1.cols = df1.cols.map strLower ∧ c.df1.dtypes = df1.dtypes ∧
      c.df1.rows = df1.rows ∧
      c.df2.cols = df2.cols.map strLower ∧ c.df2.dtypes = df2.dtypes ∧
      c.df2.rows = df2.rows := by
  obtain ⟨jc, onIdx, hcfg, hv1, hv2, hceq⟩ := mkCompare_ok h
  subst hceq
  obtain ⟨hp1, hp2⟩ :=
    dataframe_merge_post onIdx jc (lowerCols_WF h1) (lowerCols_WF h2)
  refine ⟨?_, ?_, ?_, ?_, ?_, ?_⟩
  · show (dataframe_merge onIdx jc (lowerCols df1) (lowerCols df2)).df1_post.cols = _
    rw [hp1]
    rfl
  · show (dataframe_merge onIdx jc (lowerCols df1) (lowerCols df2)).df1_post.dtypes = _
    rw [hp1]
    rfl
  · show (dataframe_merge onIdx jc (lowerCols df1) (lowerCols df2)).df1_post.rows = _
    rw [hp1]
    rfl
  · show (dataframe_merge onIdx jc (lowerCols df1) (lowerCols df2)).df2_post.cols = _
    rw [hp2]
    rfl
  · show (dataframe_merge onIdx jc (lowerCols df1) (lowerCols df2)).df2_post.dtypes = _
    rw [hp2]
    rfl
  · show (dataframe_merge onIdx jc (lowerCols df1) (lowerCols df2)).df2_post.rows = _
    rw [hp2]
    rfl

/-- The comparison built from the C9 witness input. -/
def c9w : Comparison := getOkC (mkCompare dfU dfU (some ["A"]) false 0 0)

/-- Witness for the amended C9. -/
theorem C9_no_schema_mutation_witness :
    dfU.WF ∧ mkCompare dfU dfU (some ["A"]) false 0 0 = .ok c9w ∧
    (c9w.df1.cols = dfU.cols.map strLower ∧ c9w.df1.dtypes = dfU.dtypes ∧
      c9w.df1.rows = dfU.rows ∧
      c9w.df2.cols = dfU.cols.map strLower ∧ c9w.df2.dtypes = dfU.dtypes ∧
      c9w.df2.rows = dfU.rows) :=
  ⟨by decide, rfl,
    C9_no_schema_mutation_amended dfU dfU (some ["A"]) false 0 0 c9w
      (by decide) (by decide) rfl⟩

/-- Shared dataset for the C10 counterexample and witness. -/
def df10 : DataFrame :=
  { cols := ["id", "val"], dtypes := ["int64", "int64"],
    rows := [⟨Value.num 0, [Value.num 1, Value.num 2]⟩] }

/-- Counterexample to C10 as stated: `_intersect_compare` appends a stats entry for
every shared column, the join key `"id"` included, so `column_stats` does not range
over the shared non-key columns (`["val"]`) only. -/
theorem C10_counterexample :
    (mkCompare df10 df10 (some ["id"]) false 0 0).map
        (fun c => c.column_stats.map (fun s => s.column)) = .ok ["id", "val"] ∧
    (mkCompare df10 df10 (some ["id"]) false 0 0).map
        (fun c => (intersect_columns c.df1 c.df2).filter
          (fun col => !(decide (col ∈ c.join_columns)))) = .ok ["val"] ∧
    (["id", "val"] : List String) ≠ ["val"] :=
  ⟨rfl, rfl, by decide⟩

/-- C10 (amended): after every comparison `column_stats` holds exactly one entry
per shared column — join-key columns included, which get a trivial entry with
`match_cnt = row_cnt` — and each entry's all-match flag is true iff the two dtypes
are equal and the entry's mismatch count is zero. -/
theorem columnStat_map_column (dfa dfb : DataFrame) (jcl : List String)
    (inter : List (Row × Row)) (rt at' : ℚ) :
    ∀ (cols : List String),
      ((cols.map (columnStat dfa dfb jcl inter rt at')).map (fun s => s.column)) =
        cols := by
  intro cols
  induction cols with
  | nil => rfl
  | cons x t ih =>
    simp only [List.map_cons]
    rw [ih]
    rfl

theorem columnStat_all_match_iff (dfa dfb : DataFrame) (jcl : List String)
    (inter : List (Row × Row)) (rt at' : ℚ) (col : String) :
    ((columnStat dfa dfb jcl inter rt at' col).all_match = true ↔
      (columnStat dfa dfb jcl inter rt at' col).dtype1 =
          (columnStat dfa dfb jcl inter rt at' col).dtype2 ∧
        (columnStat dfa dfb jcl inter rt at' col).unequal_cnt = 0) := by
  by_cases hin : col ∈ jcl
  · simp only [columnStat, if_pos hin, Bool.and_eq_true, decide_eq_true_eq]
    constructor
    · rintro ⟨hd, _⟩
      exact ⟨hd, by omega⟩
    · rintro ⟨hd, _⟩
      exact ⟨hd, trivial⟩
  · have hle : inter.countP (fun pr =>
        columns_equal (cellOf dfa.cols pr.1 col) (cellOf dfb.cols pr.2 col) rt at') ≤
        inter.length := List.countP_le_length _
    simp only [columnStat, if_neg hin, Bool.and_eq_true, decide_eq_true_eq]
    constructor
    · rintro ⟨hd, he⟩
      exact ⟨hd, by omega⟩
    · rintro ⟨hd, he⟩
      exact ⟨hd, by omega⟩

theorem C10_column_stats_amended (df1 df2 : DataFrame) (jc? : Option (List String))
    (oi : Bool) (a r : ℚ) (c : Comparison)
    (h : mkCompare df1 df2 jc? oi a r = .ok c) :
    c.column_stats.map (fun s => s.column) = intersect_columns c.df1 c.df2 ∧
    ∀ st ∈ c.column_stats,
      (st.all_match = true ↔ st.dtype1 = st.dtype2 ∧ st.unequal_cnt = 0) := by
  obtain ⟨jc, onIdx, hcfg, hv1, hv2, hceq⟩ := mkCompare_ok h
  subst hceq
  constructor
  · exact columnStat_map_column _ _ _ _ r a _
  · intro st hst
    have hst' : st ∈ (intersect_columns
        (assemble jc onIdx (lowerCols df1) (lowerCols df2)).df1
        (assemble jc onIdx (lowerCols df1) (lowerCols df2)).df2).map
        (columnStat (assemble jc onIdx (lowerCols df1) (lowerCols df2)).df1
          (assemble jc onIdx (lowerCols df1) (lowerCols df2)).df2
          (assemble jc onIdx (lowerCols df1) (lowerCols df2)).join_columns
          (assemble jc onIdx (lowerCols df1) (lowerCols df2)).intersect_rows r a) := hst
    obtain ⟨col, hcol, hste⟩ := List.mem_map.mp hst'
    rw [← hste]
    exact columnStat_all_match_iff _ _ _ _ r a col

/-- The comparison built from the C10 dataset. -/
def c10w : Comparison := getOkC (mkCompare df10 df10 (some ["id"]) false 0 0)

/-- Witness for the amended C10. -/
theorem C10_column_stats_witness :
    mkCompare df10 df10 (some ["id"]) false 0 0 = .ok c10w ∧
    (c10w.column_stats.map (fun s => s.column) =
        intersect_columns c10w.df1 c10w.df2 ∧
      ∀ st ∈ c10w.column_stats,
        (st.all_match = true ↔ st.dtype1 = st.dtype2 ∧ st.unequal_cnt = 0)) :=
  ⟨rfl, C10_column_stats_amended df10 df10 (some ["id"]) false 0 0 c10w rfl⟩

end Datacompy
